import Mathlib

/-!  Verification of refstack-client's test-list normalization and
submission/retrieval logic, shallowly embedded from
refstack_client/list_parser.py and refstack_client/refstack_client.py.

Python strings are modelled as Lean String (with List Char where character
level manipulation is needed); Python dicts with string keys are modelled as
insertion-ordered association lists. -/

set_option maxRecDepth 100000

namespace Refstack

/-! ### Ordered string-keyed mapping (a Python dict preserving insertion order) -/

abbrev TestMap := List (String × String)

/-- Lookup in an insertion-ordered mapping (Python d[k], as an Option). -/
def lookupA : TestMap → String → Option String
  | [], _ => none
  | (k, v) :: rest, key => if k = key then some v else lookupA rest key

/-- Assignment d[key] = val in an insertion-ordered dict: an existing key keeps
its position and gets the new value, a new key is appended at the end. -/
def upsert : TestMap → String → String → TestMap
  | [], key, val => [(key, val)]
  | (k, v) :: rest, key, val =>
      if k = key then (k, val) :: rest else (k, v) :: upsert rest key val

/-- The key sequence of the mapping, in insertion order (Python d.keys()). -/
def keysOf (m : TestMap) : List String := m.map Prod.fst

/-! ### Greedy bracket-group search

Embedding of re.search applied to the pattern that captures a maximal span
from an opening square bracket to a closing square bracket, as used in
TestListParser.form_test_id_mappings (list_parser.py).  The scan moves left
to right and, at the first opening bracket that has a closing bracket
somewhere after it, matches greedily up to the last closing bracket of the
remaining suffix. -/

/-- Split a character list at the LAST occurrence of c: some (pre, post) with
the list equal to pre ++ c :: post and c not occurring in post. -/
def lastSplit (c : Char) : List Char → Option (List Char × List Char)
  | [] => none
  | x :: xs =>
      match lastSplit c xs with
      | some (pre, post) => some (x :: pre, post)
      | none => if x = c then some ([], xs) else none

/-- Scan for the greedy bracket group: returns some (pre, span, post) where
span is the matched group including both brackets. -/
def reSearchBracket : List Char → Option (List Char × List Char × List Char)
  | [] => none
  | x :: xs =>
      if x = '[' then
        match lastSplit ']' xs with
        | some (mid, post) => some ([], '[' :: (mid ++ [']']), post)
        | none =>
            match reSearchBracket xs with
            | some (pre, span, post) => some (x :: pre, span, post)
            | none => none
      else
        match reSearchBracket xs with
        | some (pre, span, post) => some (x :: pre, span, post)
        | none => none

/-! ### TestListParser.form_test_id_mappings (list_parser.py lines 73 to 95) -/

/-- Embedding of TestListParser.form_test_id_mappings: build the dict mapping
base test IDs to their bracketed attribute tags.  Empty lines are skipped;
a matched bracket group is removed from the line to form the key (re.sub of
the same greedy pattern removes exactly the matched span, since no closing
bracket remains after it) and stored, brackets included, as the value; a line
without a bracket group is stored whole, with the empty string as its tag. -/
def form_test_id_mappings (test_list : List String) : TestMap :=
  test_list.foldl
    (fun m testcase =>
      if testcase = "" then m
      else
        match reSearchBracket testcase.data with
        | some (pre, span, post) =>
            upsert m (String.mk (pre ++ post)) (String.mk span)
        | none => upsert m testcase "")
    []

/-! ### TestListParser.get_full_test_ids (list_parser.py lines 127 to 153) -/

/-- Split a character list at the FIRST occurrence of c: some (pre, post) with
the list equal to pre ++ c :: post and c not occurring in pre (Python
s.split(c, 1) when c occurs). -/
def splitFirst (c : Char) : List Char → Option (List Char × List Char)
  | [] => none
  | x :: xs =>
      if x = c then some ([], xs)
      else (splitFirst c xs).map (fun pq => (x :: pq.1, pq.2))

/-- One loop body of get_full_test_ids for a base id found in the mapping with
attribute tag attr: when the id carries a scenario suffix and the tag is
nonempty, split at the first opening parenthesis and put the tag before the
scenario; otherwise append the tag (appending an empty tag is the identity). -/
def emitOne (test_id attr : String) : String :=
  if '(' ∈ test_id.data ∧ attr ≠ "" then
    match splitFirst '(' test_id.data with
    | some (pre, post) => String.mk pre ++ attr ++ "(" ++ String.mk post
    | none => test_id ++ attr
  else test_id ++ attr

/-- Embedding of TestListParser.get_full_test_ids: rebuild the requested list
with the full IDs of the current environment; ids missing from the mapping
are skipped (the KeyError path only logs at debug level). -/
def get_full_test_ids (tempest_ids : TestMap) (base_ids : List String) :
    List String :=
  base_ids.filterMap (fun test_id =>
    (lookupA tempest_ids test_id).map (emitOne test_id))

/-! ### TestListParser.get_base_test_ids_from_list_file (lines 97 to 125)

The IO portion (requests.get or reading the file) produces the raw line
list; the computational content is forming the mappings from those lines and
returning list(test_mappings.keys()). -/

/-- Embedding of the pure tail of get_base_test_ids_from_list_file. -/
def get_base_test_ids (test_list : List String) : List String :=
  keysOf (form_test_id_mappings test_list)

/-- The base key a nonempty line contributes: the line with the greedy bracket
span removed, or the whole line if no span is found. -/
def strippedKey (s : String) : String :=
  match reSearchBracket s.data with
  | some (pre, _, post) => String.mk (pre ++ post)
  | none => s

/-- The attribute tag a nonempty line contributes (empty when no span). -/
def tagOf (s : String) : String :=
  match reSearchBracket s.data with
  | some (_, span, _) => String.mk span
  | none => ""

/-- The per-element rewrite the normalizer applies to a requested id that was
kept (ids absent from the mapping never reach this function's some branch). -/
def rewriteOne (m : TestMap) (test_id : String) : String :=
  match lookupA m test_id with
  | some attr => emitOne test_id attr
  | none => test_id

/-! ### Bytes, hex and UTF-8 helpers -/

/-- Little-endian byte rendering of a number on k bytes. -/
def toLEBytes : Nat → Nat → List Nat
  | 0, _ => []
  | k + 1, n => (n % 256) :: toLEBytes k (n / 256)

/-- Lowercase hexadecimal digit for a nibble. -/
def hexDigitL (n : Nat) : Char :=
  if n < 10 then Char.ofNat (48 + n) else Char.ofNat (87 + n)

/-- Two lowercase hexadecimal digits of a byte. -/
def byteToHex (b : Nat) : List Char := [hexDigitL (b / 16), hexDigitL (b % 16)]

/-- Lowercase hexadecimal rendering of a byte string (binascii.hexlify and
the hexdigest rendering of hashlib). -/
def bytesToHex (bs : List Nat) : String := String.mk ((bs.map byteToHex).flatten)

/-- UTF-8 encoding of one code point (str.encode of Python). -/
def utf8EncodeChar (c : Char) : List Nat :=
  let n := c.toNat
  if n < 128 then [n]
  else if n < 2048 then [192 + n / 64, 128 + n % 64]
  else if n < 65536 then [224 + n / 4096, 128 + (n / 64) % 64, 128 + n % 64]
  else [240 + n / 262144, 128 + (n / 4096) % 64, 128 + (n / 64) % 64,
    128 + n % 64]

/-- UTF-8 encoding of a string as a byte list. -/
def utf8Bytes (s : String) : List Nat := (s.data.map utf8EncodeChar).flatten

/-! ### MD5 (hashlib.md5), per RFC 1321, on 32-bit words as Nat mod 2^32 -/

/-- Addition modulo 2^32. -/
def add32 (a b : Nat) : Nat := (a + b) % 4294967296

/-- Left rotation of a 32-bit word. -/
def rotl32 (x n : Nat) : Nat :=
  ((x <<< n) ||| (x >>> (32 - n))) % 4294967296

/-- The 64 MD5 sine-derived round constants. -/
def md5K : List Nat :=
  [3614090360, 3905402710, 606105819, 3250441966,
   4118548399, 1200080426, 2821735955, 4249261313,
   1770035416, 2336552879, 4294925233, 2304563134,
   1804603682, 4254626195, 2792965006, 1236535329,
   4129170786, 3225465664, 643717713, 3921069994,
   3593408605, 38016083, 3634488961, 3889429448,
   568446438, 3275163606, 4107603335, 1163531501,
   2850285829, 4243563512, 1735328473, 2368359562,
   4294588738, 2272392833, 1839030562, 4259657740,
   2763975236, 1272893353, 4139469664, 3200236656,
   681279174, 3936430074, 3572445317, 76029189,
   3654602809, 3873151461, 530742520, 3299628645,
   4096336452, 1126891415, 2878612391, 4237533241,
   1700485571, 2399980690, 4293915773, 2240044497,
   1873313359, 4264355552, 2734768916, 1309151649,
   4149444226, 3174756917, 718787259, 3951481745]

/-- The 64 MD5 per-round rotation amounts. -/
def md5S : List Nat :=
  [7, 12, 17, 22, 7, 12, 17, 22, 7, 12, 17, 22, 7, 12, 17, 22,
   5, 9, 14, 20, 5, 9, 14, 20, 5, 9, 14, 20, 5, 9, 14, 20,
   4, 11, 16, 23, 4, 11, 16, 23, 4, 11, 16, 23, 4, 11, 16, 23,
   6, 10, 15, 21, 6, 10, 15, 21, 6, 10, 15, 21, 6, 10, 15, 21]

/-- One MD5 round applied to the running state, with w the message-word
accessor of the current block. -/
def md5Step (w : Nat → Nat) (st : Nat × Nat × Nat × Nat) (i : Nat) :
    Nat × Nat × Nat × Nat :=
  let (a, b, c, d) := st
  let notop : Nat → Nat := fun x => x ^^^ 4294967295
  let fg : Nat × Nat :=
    if i < 16 then ((b &&& c) ||| (notop b &&& d), i)
    else if i < 32 then ((d &&& b) ||| (notop d &&& c), (5 * i + 1) % 16)
    else if i < 48 then (b ^^^ c ^^^ d, (3 * i + 5) % 16)
    else (c ^^^ (b ||| notop d), (7 * i) % 16)
  let f2 := (fg.1 + a + md5K.getD i 0 + w fg.2) % 4294967296
  (d, add32 b (rotl32 f2 (md5S.getD i 0)), b, c)

/-- Worker for fixed-width chunking: k is the remaining capacity of the chunk
being accumulated (in reverse) in acc. -/
def chunkGo (n : Nat) : List Nat → List Nat → Nat → List (List Nat)
  | [], acc, _ => if acc.isEmpty then [] else [acc.reverse]
  | x :: xs, acc, 0 => acc.reverse :: chunkGo n xs [x] (n - 1)
  | x :: xs, acc, k + 1 => chunkGo n xs (x :: acc) k

/-- Split a byte list into groups of n bytes (the last may be shorter). -/
def chunksN (n : Nat) (l : List Nat) : List (List Nat) := chunkGo n l [] n

/-- Split a byte list into 4-byte groups. -/
def chunks4 (l : List Nat) : List (List Nat) := chunksN 4 l

/-- Split a byte list into 64-byte blocks. -/
def chunks64 (l : List Nat) : List (List Nat) := chunksN 64 l

/-- Little-endian 32-bit word value of a 4-byte group. -/
def leWord (bs : List Nat) : Nat := bs.foldr (fun b acc => acc * 256 + b) 0

/-- MD5 compression of one 64-byte block into the running state. -/
def md5Block (st : Nat × Nat × Nat × Nat) (block : List Nat) :
    Nat × Nat × Nat × Nat :=
  let ws := (chunks4 block).map leWord
  let w : Nat → Nat := fun g => ws.getD g 0
  let (a, b, c, d) := st
  let st2 := (List.range 64).foldl (md5Step w) st
  (add32 a st2.1, add32 b st2.2.1, add32 c st2.2.2.1, add32 d st2.2.2.2)

/-- MD5 padding: a 1 bit, zeros to 56 mod 64 bytes, then the bit length on
8 little-endian bytes. -/
def md5pad (msg : List Nat) : List Nat :=
  let ml := msg.length
  msg ++ [128] ++ List.replicate ((64 + 56 - ((ml + 1) % 64)) % 64) 0
    ++ toLEBytes 8 (8 * ml)

/-- MD5 initial state. -/
def md5Init : Nat × Nat × Nat × Nat :=
  (1732584193, 4023233417, 2562383102, 271733878)

/-- The four MD5 state words of a message. -/
def md5core (msg : List Nat) : Nat × Nat × Nat × Nat :=
  (chunks64 (md5pad msg)).foldl md5Block md5Init

/-- The 16-byte MD5 digest of a byte string. -/
def md5bytes (msg : List Nat) : List Nat :=
  let st := md5core msg
  toLEBytes 4 st.1 ++ toLEBytes 4 st.2.1 ++ toLEBytes 4 st.2.2.1
    ++ toLEBytes 4 st.2.2.2

/-- The lowercase hex digest of hashlib.md5. -/
def md5hex (msg : List Nat) : String := bytesToHex (md5bytes msg)

/-! ### urllib.parse model (six.moves.urllib.parse on Python 3)

Modelled from the spec:  the repository calls the external urllib.parse
library, whose source is not part of this repository; the model below follows
CPython 3 urlsplit restricted to the two attributes the client reads, scheme
and hostname. -/

/-- Scheme characters of urllib.parse: ASCII letters, digits and plus, minus,
dot. -/
def isSchemeChar (c : Char) : Bool :=
  c.isAlpha || c.isDigit || c == '+' || c == '-' || c == '.'

/-- Modelled from urllib.parse urlsplit (CPython 3): leading WHATWG C0 control
or space characters are stripped and tab, CR and LF are removed throughout
before parsing. -/
def sanitizeUrl (s : List Char) : List Char :=
  (s.dropWhile (fun c => c.toNat ≤ 32)).filter
    (fun c => !(c == Char.ofNat 9 || c == Char.ofNat 13 || c == Char.ofNat 10))

/-- Scheme recognition of urlsplit: the text before the first colon is the
scheme when it is nonempty, starts with an ASCII letter and consists of scheme
characters; it is reported lower-cased.  Otherwise the scheme is empty and the
whole text remains. -/
def splitScheme (s : List Char) : List Char × List Char :=
  match splitFirst ':' s with
  | some (pre, post) =>
      match pre with
      | [] => ([], s)
      | c :: _ =>
          if c.isAlpha && pre.all isSchemeChar then
            (pre.map Char.toLower, post)
          else ([], s)
  | none => ([], s)

/-- A character ending the network-location part. -/
def isNetlocEnd (c : Char) : Bool := c == '/' || c == '?' || c == '#'

/-- Parse result, restricted to the attributes the client reads. -/
structure UrlParts where
  scheme : List Char
  netloc : List Char
deriving DecidableEq

/-- Modelled from urllib.parse urlsplit (CPython 3), restricted to scheme and
network location: after sanitizing and scheme recognition, a rest starting
with two slashes carries the network location up to the next slash, question
mark or hash, and mismatched square brackets there raise ValueError (invalid
IPv6 URL).  The stricter bracketed-host validation that CPython 3.11 added is
not modelled; all endpoints considered below are bracket-free. -/
def urlsplitM (url : List Char) : Except Unit UrlParts :=
  let u := sanitizeUrl url
  let sr := splitScheme u
  if sr.2.take 2 = ['/', '/'] then
    let netloc := (sr.2.drop 2).takeWhile (fun c => !isNetlocEnd c)
    if ('[' ∈ netloc ∧ ']' ∉ netloc) ∨ (']' ∈ netloc ∧ '[' ∉ netloc) then
      Except.error ()
    else Except.ok ⟨sr.1, netloc⟩
  else Except.ok ⟨sr.1, []⟩

/-- Equality of parse outcomes is decidable. -/
instance {ε α : Type} [DecidableEq ε] [DecidableEq α] :
    DecidableEq (Except ε α) := fun a b =>
  match a, b with
  | Except.error e1, Except.error e2 =>
      if h : e1 = e2 then isTrue (by rw [h]) else isFalse (by
        intro hc; cases hc; exact h rfl)
  | Except.error _, Except.ok _ => isFalse (by intro hc; cases hc)
  | Except.ok _, Except.error _ => isFalse (by intro hc; cases hc)
  | Except.ok a1, Except.ok a2 =>
      if h : a1 = a2 then isTrue (by rw [h]) else isFalse (by
        intro hc; cases hc; exact h rfl)

/-- Everything after the last occurrence of c (Python rpartition, third
component, the whole string when c is absent). -/
def afterLast (c : Char) (s : List Char) : List Char :=
  match lastSplit c s with
  | some (_, post) => post
  | none => s

/-- The hostname attribute of a parse result (the hostinfo computation of
urllib.parse plus the lowercasing and the None for an empty host): drop the
userinfo up to the last at sign; inside square brackets take the text up to
the closing bracket, otherwise the text up to the first colon. -/
def hostnameOf (netloc : List Char) : Option (List Char) :=
  let hostinfo := afterLast '@' netloc
  let host :=
    match splitFirst '[' hostinfo with
    | some (_, bracketed) =>
        match splitFirst ']' bracketed with
        | some (h, _) => h
        | none => bracketed
    | none =>
        match splitFirst ':' hostinfo with
        | some (h, _) => h
        | none => hostinfo
  if host = [] then none else some (host.map Char.toLower)

/-! ### RefstackClient._generate_cpid_from_endpoint
(refstack_client.py lines 344 to 353) -/

/-- The exception kinds the CPID fallback can raise. -/
inductive PyErr where
  | valueError
  | attributeError
deriving DecidableEq

/-- Embedding of RefstackClient._generate_cpid_from_endpoint: parse the
endpoint; a scheme other than http or https raises ValueError; otherwise the
result is the MD5 hex digest of the UTF-8 encoded hostname — and when the
parsed hostname is None (empty host), the attribute access hostname.encode
raises AttributeError. -/
def generate_cpid_from_endpoint (endpoint : String) : Except PyErr String :=
  match urlsplitM endpoint.data with
  | Except.error _ => Except.error PyErr.valueError
  | Except.ok parts =>
      if parts.scheme = "http".data ∨ parts.scheme = "https".data then
        match hostnameOf parts.netloc with
        | some h => Except.ok (md5hex (utf8Bytes (String.mk h)))
        | none => Except.error PyErr.attributeError
      else Except.error PyErr.valueError

/-- A lowercase hexadecimal digit character. -/
def isHexLowerChar (c : Char) : Bool :=
  c.isDigit || (97 ≤ c.toNat && c.toNat ≤ 102)

/-! ### RefstackClient.yield_results (refstack_client.py lines 643 to 664) -/

/-- A page response of the results listing: the results batch and the
total_pages pagination metadata. -/
structure PageResponse where
  results : List String
  total_pages : Nat
deriving DecidableEq

/-- How the generator loop leaves.  Both stop sites execute a raise of
StopIteration inside the generator body: after an HTTPError on the page GET,
and after yielding the batch of the page equal to the reported total page
count.  The itertools.count loop is unbounded, so a run that used up its fuel
is marked fuelOut. -/
inductive GenExit where
  | httpErrorStop
  | exhaustedStop
  | fuelOut
deriving DecidableEq

/-- What the consumer iterating the generator observes at the end of the batch
sequence.  Under Python 3.7 and later (PEP 479) a StopIteration raised inside
a generator body is replaced by a RuntimeError propagated to the consumer;
only up to Python 3.6 did both stop sites end the iteration normally. -/
inductive CallerEnd where
  | normalEnd
  | runtimeError
  | stillRunning
deriving DecidableEq

/-- The observation at the consumer for each generator exit, per PEP 479. -/
def observedEnd : GenExit → CallerEnd
  | GenExit.httpErrorStop => CallerEnd.runtimeError
  | GenExit.exhaustedStop => CallerEnd.runtimeError
  | GenExit.fuelOut => CallerEnd.stillRunning

/-- Embedding of RefstackClient.yield_results: starting at start_page, each
step issues the page GET (abstracted as fetch); an HTTPError is logged and
the loop stops at the first raise site with nothing further yielded; on
success the batch is yielded and the loop stops at the second raise site when
the reported total page count equals the current page, else it continues with
the next page. -/
def yield_results_run (fetch : Nat → Except Unit PageResponse) :
    Nat → Nat → List (List String) × GenExit
  | 0, _ => ([], GenExit.fuelOut)
  | fuel + 1, page =>
      match fetch page with
      | Except.error _ => ([], GenExit.httpErrorStop)
      | Except.ok resp =>
          if resp.total_pages = page then
            ([resp.results], GenExit.exhaustedStop)
          else
            let rest := yield_results_run fetch fuel (page + 1)
            (resp.results :: rest.1, rest.2)

/-- A server reporting three total pages whose page requests all succeed. -/
def server3 : Nat → Except Unit PageResponse :=
  fun p => Except.ok ⟨["batch" ++ toString p], 3⟩

/-- A server whose first page succeeds (reporting three pages) and whose
later page requests all fail at the HTTP level. -/
def serverFailAt2 : Nat → Except Unit PageResponse :=
  fun p => if p = 1 then Except.ok ⟨["batch1"], 3⟩ else Except.error ()

/-! ### SHA-256 (FIPS 180-4), big-endian, words as Nat mod 2^32 -/

/-- Big-endian word value of a byte group. -/
def beWord (bs : List Nat) : Nat := bs.foldl (fun acc b => acc * 256 + b) 0

/-- Big-endian byte rendering of a number on k bytes. -/
def toBEBytes : Nat → Nat → List Nat
  | 0, _ => []
  | k + 1, n => toBEBytes k (n / 256) ++ [n % 256]

/-- Right rotation of a 32-bit word. -/
def rotr32 (x n : Nat) : Nat :=
  ((x >>> n) ||| (x <<< (32 - n))) % 4294967296

/-- The 64 SHA-256 cube-root round constants. -/
def sha256K : List Nat :=
  [1116352408, 1899447441, 3049323471, 3921009573,
   961987163, 1508970993, 2453635748, 2870763221,
   3624381080, 310598401, 607225278, 1426881987,
   1925078388, 2162078206, 2614888103, 3248222580,
   3835390401, 4022224774, 264347078, 604807628,
   770255983, 1249150122, 1555081692, 1996064986,
   2554220882, 2821834349, 2952996808, 3210313671,
   3336571891, 3584528711, 113926993, 338241895,
   666307205, 773529912, 1294757372, 1396182291,
   1695183700, 1986661051, 2177026350, 2456956037,
   2730485921, 2820302411, 3259730800, 3345764771,
   3516065817, 3600352804, 4094571909, 275423344,
   430227734, 506948616, 659060556, 883997877,
   958139571, 1322822218, 1537002063, 1747873779,
   1955562222, 2024104815, 2227730452, 2361852424,
   2428436474, 2756734187, 3204031479, 3329325298]

/-- SHA-256 initial state (square roots of the first eight primes). -/
def sha256Init : List Nat :=
  [1779033703, 3144134277, 1013904242, 2773480762,
   1359893119, 2600822924, 528734635, 1541459225]

/-- One SHA-256 round on the eight-word running state. -/
def shaRound (w : Nat → Nat) (st : List Nat) (i : Nat) : List Nat :=
  match st with
  | [a, b, c, d, e, f, g, h] =>
      let s1 := rotr32 e 6 ^^^ rotr32 e 11 ^^^ rotr32 e 25
      let ch := (e &&& f) ^^^ ((e ^^^ 4294967295) &&& g)
      let t1 := (h + s1 + ch + sha256K.getD i 0 + w i) % 4294967296
      let s0 := rotr32 a 2 ^^^ rotr32 a 13 ^^^ rotr32 a 22
      let mj := (a &&& b) ^^^ (a &&& c) ^^^ (b &&& c)
      let t2 := (s0 + mj) % 4294967296
      [(t1 + t2) % 4294967296, a, b, c, (d + t1) % 4294967296, e, f, g]
  | other => other

/-- SHA-256 compression of one 64-byte block into the running state. -/
def sha256Block (st : List Nat) (block : List Nat) : List Nat :=
  let w0 := (chunks4 block).map beWord
  let ws := (List.range 48).foldl
    (fun w _ =>
      let i := w.length
      let g1 := w.getD (i - 15) 0
      let g2 := w.getD (i - 2) 0
      let s0 := rotr32 g1 7 ^^^ rotr32 g1 18 ^^^ (g1 >>> 3)
      let s1 := rotr32 g2 17 ^^^ rotr32 g2 19 ^^^ (g2 >>> 10)
      w ++ [(w.getD (i - 16) 0 + s0 + w.getD (i - 7) 0 + s1) % 4294967296])
    w0
  let st2 := (List.range 64).foldl (shaRound (fun i => ws.getD i 0)) st
  List.zipWith (fun x y => (x + y) % 4294967296) st st2

/-- SHA-256 padding: a 1 bit, zeros to 56 mod 64 bytes, then the bit length
on 8 big-endian bytes. -/
def sha256pad (msg : List Nat) : List Nat :=
  msg ++ [128] ++ List.replicate ((64 + 56 - ((msg.length + 1) % 64)) % 64) 0
    ++ toBEBytes 8 (8 * msg.length)

/-- The 32-byte SHA-256 digest of a byte string. -/
def sha256bytes (msg : List Nat) : List Nat :=
  (((chunks64 (sha256pad msg)).foldl sha256Block sha256Init).map
    (toBEBytes 4)).flatten

/-! ### RSA signing with PKCS#1 v1.5 padding and SHA-256

Modelled from the spec:  post_results calls the external cryptography
library's signer with PKCS1v15 padding and SHA256; that library's source is
not part of this repository.  The model follows RFC 8017 (RSASSA-PKCS1-v1_5).
The signing interface is given the random stream an RNG-consuming padding
such as PSS would draw from, so that (non)use of randomness is explicit in
the embedding; the PKCS#1 v1.5 encoding is fully determined by digest and
length and consumes none of it. -/

/-- An RSA private key: modulus, public exponent, private exponent. -/
structure RSAKey where
  n : Nat
  e : Nat
  d : Nat
deriving DecidableEq

/-- Octet length worker with explicit fuel. -/
def octetLenGo : Nat → Nat → Nat
  | 0, _ => 0
  | fuel + 1, n => if n = 0 then 0 else 1 + octetLenGo fuel (n / 256)

/-- Octet length of a number (0 for 0). -/
def octetLen (n : Nat) : Nat := octetLenGo n n

/-- Square-and-multiply modular exponentiation worker with explicit fuel. -/
def powModGo : Nat → Nat → Nat → Nat → Nat
  | 0, _, _, m => 1 % m
  | fuel + 1, b, e, m =>
      if e = 0 then 1 % m
      else
        let h := powModGo fuel ((b * b) % m) (e / 2) m
        if e % 2 = 1 then (h * b) % m else h

/-- Modular exponentiation. -/
def powMod (b e m : Nat) : Nat := powModGo e b e m

/-- The DER DigestInfo prefix for SHA-256 (RFC 8017, section 9.2 notes). -/
def sha256DigestInfoPrefix : List Nat :=
  [48, 49, 48, 13, 6, 9, 96, 134, 72, 1, 101, 3, 4, 2, 1, 5, 0, 4, 32]

/-- EMSA-PKCS1-v1_5 encoding (RFC 8017 section 9.2): 0x00, 0x01, a run of
0xFF bytes, 0x00, then the DigestInfo.  The encoding is fully determined by
the digest and the target length; the entropy stream is not consulted. -/
def emsaPkcs1v15 (entropy : List Nat) (digest : List Nat) (emLen : Nat) :
    List Nat :=
  let t := sha256DigestInfoPrefix ++ digest
  let psLen := emLen - t.length - 3
  [0, 1] ++ List.replicate psLen 255 ++ [0] ++ t

/-- RSASSA-PKCS1-v1_5 signature bytes over a message with SHA-256. -/
def rsaSign (entropy : List Nat) (key : RSAKey) (msg : List Nat) : List Nat :=
  let k := octetLen key.n
  let em := emsaPkcs1v15 entropy (sha256bytes msg) k
  toBEBytes k (powMod (beWord em) key.d key.n)

/-! ### OpenSSH public key export (serialization.Encoding.OpenSSH) -/

/-- The base64 alphabet. -/
def base64Chars : List Char :=
  "ABCDEFGHIJKLMNOPQRSTUVWXYZabcdefghijklmnopqrstuvwxyz0123456789+/".data

/-- The base64 character of a 6-bit group. -/
def b64Char (n : Nat) : Char := base64Chars.getD n 'A'

/-- Base64 encoding of a byte string with padding. -/
def base64Encode (bs : List Nat) : List Char :=
  ((chunksN 3 bs).map
    (fun grp =>
      match grp with
      | [a, b, c] => [b64Char (a / 4), b64Char (a % 4 * 16 + b / 16),
          b64Char (b % 16 * 4 + c / 64), b64Char (c % 64)]
      | [a, b] => [b64Char (a / 4), b64Char (a % 4 * 16 + b / 16),
          b64Char (b % 16 * 4), '=']
      | [a] => [b64Char (a / 4), b64Char (a % 4 * 16), '=', '=']
      | _ => [])).flatten

/-- A length-prefixed byte string of the SSH wire format. -/
def sshString (s : List Nat) : List Nat := toBEBytes 4 s.length ++ s

/-- A length-prefixed SSH multiple-precision integer: big-endian minimal
bytes, with a leading zero byte when the top bit is set. -/
def sshMpint (x : Nat) : List Nat :=
  let bs := toBEBytes (octetLen x) x
  let bs2 := match bs with
    | [] => []
    | b :: _ => if 128 ≤ b then 0 :: b :: bs.tail else bs
  toBEBytes 4 bs2.length ++ bs2

/-- The OpenSSH rendering of the RSA public key. -/
def opensshPublicKey (key : RSAKey) : String :=
  let blob := sshString (utf8Bytes "ssh-rsa") ++ sshMpint key.e
    ++ sshMpint key.n
  "ssh-rsa " ++ String.mk (base64Encode blob)

/-! ### RefstackClient.post_results (refstack_client.py lines 395 to 435) -/

/-- Errors caught while parsing the signing key file (the except clause lists
IOError, UnsupportedAlgorithm and ValueError around load_pem_private_key). -/
inductive KeyLoadErr where
  | unsupportedAlgorithm
  | malformedKey
deriving DecidableEq

/-- The outcome of the key file: the outer layer is the open call, which sits
outside the try block so its failure escapes post_results; the inner layer is
load_pem_private_key, whose failure is caught inside. -/
abbrev KeyFile := Except Unit (Except KeyLoadErr RSAKey)

/-- The HTTP POST request as assembled by post_results for requests.post. -/
structure PostRequest where
  endpoint : String
  body : String
  xSignature : Option String
  xPublicKey : Option String
deriving DecidableEq

/-- Embedding of RefstackClient.post_results up to the POST call.  data is
the JSON-serialized envelope (json.dumps of the content).  Without sign_with
the envelope is posted with no signature headers.  With sign_with, the key
file is opened — an unreadable file raises out of the function — and parsed;
on a parse failure the function logs and returns, so no POST happens at all;
with a loaded key the hex signature over the exact serialized bytes and the
OpenSSH public key are attached as the X-Signature and X-Public-Key headers.
The result is the request handed to requests.post, none when the function
returns without posting, error when an exception escapes. -/
def post_results (url : String) (data : String) (entropy : List Nat)
    (sign_with : Option KeyFile) : Except Unit (Option PostRequest) :=
  let endpoint := url ++ "/v1/results/"
  match sign_with with
  | none => Except.ok (some ⟨endpoint, data, none, none⟩)
  | some (Except.error e) => Except.error e
  | some (Except.ok (Except.error _)) => Except.ok none
  | some (Except.ok (Except.ok key)) =>
      Except.ok (some ⟨endpoint, data,
        some (bytesToHex (rsaSign entropy key (utf8Bytes data))),
        some (opensshPublicKey key)⟩)

/-- A fixed 512-bit RSA key (deterministically generated primes) used to
validate the signing pipeline against an independently computed reference
signature. -/
def tKey : RSAKey :=
  ⟨9915783514642910417217161020839251752561362760861739816703362262623224168245929947796562454226786581211276703775784591941510284470819775334539424462919689,
   65537,
   6683096168962448632663979423096732977743686078246241198767172963399765548248808677277986771670731584583006977878259341240512938496385638668858409755056621⟩

/-- A serialized result envelope used as the signing payload fixture. -/
def tData : String :=
  "\x7b\"cpid\": \"111d5bfb97c0767001d84c0d0449fdf8\", \"duration_seconds\": 0, \"results\": []\x7d"

/- ===================== THEOREMS ===================== -/

section ListParserLemmas

/-- lastSplit never finds an occurrence in a list not containing c. -/
theorem lastSplit_of_not_mem {c : Char} {s : List Char} (h : c ∉ s) :
    lastSplit c s = none := by
  induction s with
  | nil => rfl
  | cons x xs ih =>
      rw [lastSplit, ih (fun hm => h (List.mem_cons_of_mem x hm))]
      simp only [List.mem_cons, not_or] at h
      simp [Ne.symm h.1]

/-- lastSplit finds the last occurrence: the one with no later occurrence. -/
theorem lastSplit_append {c : Char} (p : List Char) {q : List Char}
    (hq : c ∉ q) : lastSplit c (p ++ c :: q) = some (p, q) := by
  induction p with
  | nil => rw [List.nil_append, lastSplit, lastSplit_of_not_mem hq]; simp
  | cons a p ih => rw [List.cons_append, lastSplit, ih]

/-- Whatever lastSplit returns is a decomposition of its input at c. -/
theorem lastSplit_eq {c : Char} {s p q : List Char}
    (h : lastSplit c s = some (p, q)) : s = p ++ c :: q := by
  induction s generalizing p q with
  | nil => simp [lastSplit] at h
  | cons x xs ih =>
      rw [lastSplit] at h
      cases h1 : lastSplit c xs with
      | some pq =>
          rw [h1] at h
          cases h
          rw [List.cons_append]
          exact congrArg (x :: ·) (ih h1)
      | none =>
          rw [h1] at h
          by_cases hx : x = c
          · simp only [hx, if_pos rfl, Option.some.injEq] at h
            cases h
            rw [hx]
            rfl
          · simp [hx] at h

/-- The greedy bracket search succeeds on the canonical decomposition: span
from the first opening bracket to the last closing bracket. -/
theorem reSearchBracket_append {pre mid post : List Char}
    (hpre : '[' ∉ pre) (hpost : ']' ∉ post) :
    reSearchBracket (pre ++ ('[' :: (mid ++ [']'])) ++ post)
      = some (pre, '[' :: (mid ++ [']']), post) := by
  induction pre with
  | nil =>
      rw [List.nil_append, List.cons_append, reSearchBracket, if_pos rfl]
      have : mid ++ [']'] ++ post = mid ++ ']' :: post := by simp
      rw [this, lastSplit_append mid hpost]
  | cons a pre ih =>
      simp only [List.mem_cons, not_or] at hpre
      rw [List.cons_append, List.cons_append, reSearchBracket,
        if_neg (fun h => hpre.1 h.symm), ih hpre.2]

/-- Whatever the greedy bracket search returns is a bracket-delimited
decomposition of its input. -/
theorem reSearchBracket_eq {s pre span post : List Char}
    (h : reSearchBracket s = some (pre, span, post)) :
    ∃ mid, span = '[' :: (mid ++ [']']) ∧ s = pre ++ span ++ post := by
  induction s generalizing pre span post with
  | nil => simp [reSearchBracket] at h
  | cons x xs ih =>
      rw [reSearchBracket] at h
      by_cases hx : x = '['
      · rw [if_pos hx] at h
        cases h1 : lastSplit ']' xs with
        | some pq =>
            rcases pq with ⟨mid, post1⟩
            rw [h1] at h
            cases h
            exact ⟨mid, rfl, by
              have := lastSplit_eq h1
              simp [hx, this]⟩
        | none =>
            rw [h1] at h
            cases h2 : reSearchBracket xs with
            | some tr =>
                rcases tr with ⟨pre1, span1, post1⟩
                rw [h2] at h
                cases h
                rcases ih h2 with ⟨mid, hspan, hxs⟩
                exact ⟨mid, hspan, by simp [hxs]⟩
            | none => rw [h2] at h; cases h
      · rw [if_neg hx] at h
        cases h2 : reSearchBracket xs with
        | some tr =>
            rcases tr with ⟨pre1, span1, post1⟩
            rw [h2] at h
            cases h
            rcases ih h2 with ⟨mid, hspan, hxs⟩
            exact ⟨mid, hspan, by simp [hxs]⟩
        | none => rw [h2] at h; cases h

/-- splitFirst finds the first occurrence. -/
theorem splitFirst_append {c : Char} {p : List Char} (q : List Char)
    (hp : c ∉ p) : splitFirst c (p ++ c :: q) = some (p, q) := by
  induction p with
  | nil => rw [List.nil_append, splitFirst, if_pos rfl]
  | cons a p ih =>
      simp only [List.mem_cons, not_or] at hp
      rw [List.cons_append, splitFirst, if_neg (fun h => hp.1 h.symm), ih hp.2]
      rfl

/-- Assigning to a key makes lookup of that key return the new value. -/
theorem lookupA_upsert_self (m : TestMap) (k v : String) :
    lookupA (upsert m k v) k = some v := by
  induction m with
  | nil => simp [upsert, lookupA]
  | cons kv m ih =>
      rcases kv with ⟨k1, v1⟩
      rw [upsert]
      by_cases hk : k1 = k
      · rw [if_pos hk, lookupA, if_pos hk]
      · rw [if_neg hk, lookupA, if_neg hk, ih]

/-- Assigning to a key leaves lookups of other keys unchanged. -/
theorem lookupA_upsert_other (m : TestMap) {k k2 : String} (v : String)
    (h : k2 ≠ k) : lookupA (upsert m k v) k2 = lookupA m k2 := by
  induction m with
  | nil =>
      simp only [upsert, lookupA]
      rw [if_neg (fun he => h he.symm)]
  | cons kv m ih =>
      rcases kv with ⟨k1, v1⟩
      rw [upsert]
      by_cases hk : k1 = k
      · rw [if_pos hk, lookupA, lookupA]
        have : k1 ≠ k2 := by rw [hk]; exact fun he => h he.symm
        rw [if_neg this, if_neg this]
      · rw [if_neg hk, lookupA, lookupA]
        by_cases h2 : k1 = k2
        · rw [if_pos h2, if_pos h2]
        · rw [if_neg h2, if_neg h2, ih]

/-- Membership in the key sequence after an assignment. -/
theorem mem_keysOf_upsert {m : TestMap} {k k2 v : String} :
    k2 ∈ keysOf (upsert m k v) ↔ k2 ∈ keysOf m ∨ k2 = k := by
  induction m with
  | nil => simp [upsert, keysOf]
  | cons kv m ih =>
      rcases kv with ⟨k1, v1⟩
      rw [upsert]
      by_cases hk : k1 = k
      · rw [if_pos hk]
        simp only [keysOf, List.map_cons, List.mem_cons] at *
        subst hk
        constructor
        · rintro (h | h)
          · exact Or.inl (Or.inl h)
          · exact Or.inl (Or.inr h)
        · rintro ((h | h) | h)
          · exact Or.inl h
          · exact Or.inr h
          · exact Or.inl h
      · rw [if_neg hk]
        simp only [keysOf, List.map_cons, List.mem_cons] at *
        rw [ih]
        tauto

/-- An assignment keeps the key sequence duplicate-free. -/
theorem nodup_keysOf_upsert {m : TestMap} (k v : String)
    (h : (keysOf m).Nodup) : (keysOf (upsert m k v)).Nodup := by
  induction m with
  | nil => simp [upsert, keysOf]
  | cons kv m ih =>
      rcases kv with ⟨k1, v1⟩
      rw [upsert]
      simp only [keysOf, List.map_cons, List.nodup_cons] at h
      by_cases hk : k1 = k
      · rw [if_pos hk]
        simp only [keysOf, List.map_cons, List.nodup_cons]
        exact h
      · rw [if_neg hk]
        simp only [keysOf, List.map_cons, List.nodup_cons]
        refine ⟨fun hm => ?_, ih h.2⟩
        rcases mem_keysOf_upsert.mp hm with h1 | h1
        · exact h.1 h1
        · exact hk h1

/-- The fold step of form_test_id_mappings described through strippedKey and
tagOf. -/
theorem form_step_eq (m : TestMap) (s : String) :
    (if s = "" then m
      else
        match reSearchBracket s.data with
        | some (pre, span, post) =>
            upsert m (String.mk (pre ++ post)) (String.mk span)
        | none => upsert m s "")
      = if s = "" then m else upsert m (strippedKey s) (tagOf s) := by
  by_cases hs : s = ""
  · simp [hs]
  · rw [if_neg hs, if_neg hs, strippedKey, tagOf]
    cases h : reSearchBracket s.data with
    | some tr => rcases tr with ⟨pre, span, post⟩; simp [h]
    | none => simp [h]

/-- Appending one line to the input runs exactly one fold step. -/
theorem form_test_id_mappings_snoc (ls : List String) (s : String) :
    form_test_id_mappings (ls ++ [s])
      = if s = "" then form_test_id_mappings ls
        else upsert (form_test_id_mappings ls) (strippedKey s) (tagOf s) := by
  rw [form_test_id_mappings, List.foldl_append, List.foldl_cons,
    List.foldl_nil, form_step_eq]
  rfl

/-- Keys accumulated by the mapping builder, relative to an accumulator. -/
theorem mem_keysOf_fold (ls : List String) (m : TestMap) (k : String) :
    k ∈ keysOf (List.foldl
        (fun m testcase =>
          if testcase = "" then m
          else
            match reSearchBracket testcase.data with
            | some (pre, span, post) =>
                upsert m (String.mk (pre ++ post)) (String.mk span)
            | none => upsert m testcase "")
        m ls)
      ↔ k ∈ keysOf m ∨ ∃ s ∈ ls, s ≠ "" ∧ strippedKey s = k := by
  induction ls generalizing m with
  | nil => simp
  | cons s ls ih =>
      rw [List.foldl_cons, form_step_eq, ih]
      by_cases hs : s = ""
      · simp [hs]
      · rw [if_neg hs, mem_keysOf_upsert]
        simp only [List.mem_cons]
        constructor
        · rintro ((h | h) | h)
          · exact Or.inl h
          · exact Or.inr ⟨s, Or.inl rfl, hs, h.symm⟩
          · rcases h with ⟨t, ht, h1, h2⟩
            exact Or.inr ⟨t, Or.inr ht, h1, h2⟩
        · rintro (h | ⟨t, (ht | ht), h1, h2⟩)
          · exact Or.inl (Or.inl h)
          · exact Or.inl (Or.inr (by rw [ht] at h2; exact h2.symm))
          · exact Or.inr ⟨t, ht, h1, h2⟩

/-- The mapping builder keeps its key sequence duplicate-free. -/
theorem nodup_keysOf_fold (ls : List String) (m : TestMap)
    (h : (keysOf m).Nodup) :
    (keysOf (List.foldl
        (fun m testcase =>
          if testcase = "" then m
          else
            match reSearchBracket testcase.data with
            | some (pre, span, post) =>
                upsert m (String.mk (pre ++ post)) (String.mk span)
            | none => upsert m testcase "")
        m ls)).Nodup := by
  induction ls generalizing m with
  | nil => exact h
  | cons s ls ih =>
      rw [List.foldl_cons, form_step_eq]
      by_cases hs : s = ""
      · rw [if_pos hs]; exact ih m h
      · rw [if_neg hs]
        exact ih _ (nodup_keysOf_upsert _ _ h)

end ListParserLemmas

section ListParserClaims

/-- Appending the empty string on the right is the identity on strings. -/
theorem string_append_nil (s : String) : s ++ "" = s := by
  cases s with
  | mk l =>
      show String.mk (l ++ []) = String.mk l
      rw [List.append_nil]

/-- C1: for every identifier mapping and every requested base identifier found
in the mapping, normalization emits the identifier unchanged when its tag is
empty; base ++ tag when the tag is nonempty and the identifier contains no
opening parenthesis; and, when the tag is nonempty and the identifier contains
one, the result of splitting at the first opening parenthesis as
prefix ++ tag ++ "(" ++ remainder. -/
theorem C1_normalizer_emit (m : TestMap) (tid attr : String)
    (h : lookupA m tid = some attr) :
    (attr = "" → get_full_test_ids m [tid] = [tid]) ∧
    (attr ≠ "" → '(' ∉ tid.data → get_full_test_ids m [tid] = [tid ++ attr]) ∧
    (attr ≠ "" → ∀ pre post, '(' ∉ pre → tid.data = pre ++ '(' :: post →
      get_full_test_ids m [tid]
        = [String.mk pre ++ attr ++ "(" ++ String.mk post]) := by
  have hone : get_full_test_ids m [tid] = [emitOne tid attr] := by
    simp [get_full_test_ids, h]
  refine ⟨fun ha => ?_, fun ha hnp => ?_, fun ha pre post hpre hdec => ?_⟩
  · rw [hone, emitOne, if_neg (fun hc => hc.2 ha), ha, string_append_nil]
  · rw [hone, emitOne, if_neg (fun hc => hnp hc.1)]
  · have hmem : '(' ∈ tid.data := by rw [hdec]; simp
    rw [hone, emitOne, if_pos ⟨hmem, ha⟩, hdec, splitFirst_append post hpre]

/-- Witness for C1 at the spec's own example: the tag is inserted before the
scenario parenthesis, not appended after it. -/
theorem C1_normalizer_emit_witness :
    get_full_test_ids [("pkg.t2(variant)", "[id-3,smoke]")] ["pkg.t2(variant)"]
      = ["pkg.t2[id-3,smoke](variant)"] := by
  have h := (C1_normalizer_emit [("pkg.t2(variant)", "[id-3,smoke]")]
    "pkg.t2(variant)" "[id-3,smoke]" (by decide)).2.2 (by decide)
    "pkg.t2".data "variant)".data (by decide) (by decide)
  rw [h]
  decide

/-- C2: the normalizer's output is the input sequence filtered to identifiers
present in the mapping, each kept element rewritten in place; order and
duplicates are preserved and the output is never longer than the input. -/
theorem C2_normalizer_shape (m : TestMap) (ids : List String) :
    get_full_test_ids m ids
      = (ids.filter (fun i => (lookupA m i).isSome)).map (rewriteOne m) ∧
    (get_full_test_ids m ids).length ≤ ids.length := by
  constructor
  · induction ids with
    | nil => rfl
    | cons i ids ih =>
        rw [get_full_test_ids, List.filterMap_cons]
        cases h : lookupA m i with
        | some a =>
            rw [List.filter_cons_of_pos (by simp [h]), List.map_cons]
            simp only [Option.map_some']
            rw [← get_full_test_ids, ih, rewriteOne, h]
        | none =>
            rw [List.filter_cons_of_neg (by simp [h]), Option.map_none',
              ← get_full_test_ids, ih]
  · exact List.length_filterMap_le _ _

/-- C3: the mapping builder skips empty lines; a nonempty line whose character
sequence decomposes around a span from its first opening bracket to its last
closing bracket is stored with that span removed as the key and the span as
the value; a nonempty line with no such span is stored whole with an empty
tag; later lines overwrite earlier ones for the same key.  (The embedding is a
total function: no input raises.) -/
theorem C3_mapping_builder (ls : List String) (s : String)
    (pre mid post : List Char) :
    (form_test_id_mappings (ls ++ [""]) = form_test_id_mappings ls) ∧
    (s ≠ "" → '[' ∉ pre → ']' ∉ post →
      s.data = pre ++ ('[' :: (mid ++ [']'])) ++ post →
      form_test_id_mappings (ls ++ [s])
        = upsert (form_test_id_mappings ls) (String.mk (pre ++ post))
            (String.mk ('[' :: (mid ++ [']'])))) ∧
    (s ≠ "" → (∀ p q r, s.data ≠ p ++ ('[' :: (q ++ [']'])) ++ r) →
      form_test_id_mappings (ls ++ [s])
        = upsert (form_test_id_mappings ls) s "") ∧
    (∀ m k v, lookupA (upsert m k v) k = some v) ∧
    (∀ m k v k2, k2 ≠ k → lookupA (upsert m k v) k2 = lookupA m k2) := by
  refine ⟨?_, fun hs hpre hpost hdec => ?_, fun hs hno => ?_,
    lookupA_upsert_self, fun m k v k2 h => lookupA_upsert_other m v h⟩
  · rw [form_test_id_mappings_snoc, if_pos rfl]
  · rw [form_test_id_mappings_snoc, if_neg hs, strippedKey, tagOf, hdec,
      reSearchBracket_append hpre hpost]
  · have hnone : reSearchBracket s.data = none := by
      cases h : reSearchBracket s.data with
      | some tr =>
          rcases tr with ⟨p, span, q⟩
          rcases reSearchBracket_eq h with ⟨m1, hspan, hdata⟩
          exact absurd hdata (by rw [hspan] at hdata ⊢; exact hno p m1 q)
      | none => rfl
    rw [form_test_id_mappings_snoc, if_neg hs, strippedKey, tagOf, hnone]

/-- Witness for C3: a later line with the same base id overwrites the earlier
tag, and an empty line is skipped. -/
theorem C3_mapping_builder_witness :
    form_test_id_mappings (["a[1]b"] ++ ["a[2]b"]) = [("ab", "[2]")] ∧
    form_test_id_mappings (["x"] ++ [""]) = form_test_id_mappings ["x"] := by
  have h := (C3_mapping_builder ["a[1]b"] "a[2]b" "a".data "2".data
    "b".data).2.1 (by decide) (by decide) (by decide) (by decide)
  have h0 := (C3_mapping_builder ["x"] "x" [] [] []).1
  refine ⟨?_, h0⟩
  rw [h]
  decide

/-- C10: the requested base identifier sequence handed to normalization is the
key sequence of a mapping keyed by base identifier, so it contains each base
identifier at most once, and a base identifier is requested exactly when some
nonempty line of the user list strips to it (duplicate lines, and lines
differing only in their bracket tag, collapse). -/
theorem C10_base_ids_nodup (ls : List String) :
    (get_base_test_ids ls).Nodup ∧
    (∀ k, k ∈ get_base_test_ids ls
        ↔ ∃ s ∈ ls, s ≠ "" ∧ strippedKey s = k) := by
  constructor
  · rw [get_base_test_ids, form_test_id_mappings]
    exact nodup_keysOf_fold ls [] (by simp [keysOf])
  · intro k
    rw [get_base_test_ids, form_test_id_mappings]
    rw [mem_keysOf_fold ls [] k]
    simp [keysOf]

end ListParserClaims

section CpidLemmas

/-- A hexadecimal digit character for every nibble. -/
theorem hexDigitL_isHex {n : Nat} (h : n < 16) :
    isHexLowerChar (hexDigitL n) = true := by
  interval_cases n <;> decide

/-- Both characters of a byte's hex rendering are hexadecimal digits. -/
theorem byteToHex_isHex {b : Nat} (h : b < 256) :
    ∀ c ∈ byteToHex b, isHexLowerChar c = true := by
  intro c hc
  simp only [byteToHex, List.mem_cons, List.not_mem_nil, or_false] at hc
  rcases hc with h1 | h1 <;> subst h1
  · exact hexDigitL_isHex (Nat.div_lt_of_lt_mul (by omega))
  · exact hexDigitL_isHex (Nat.mod_lt _ (by omega))

/-- Little-endian byte rendering has the requested width. -/
theorem toLEBytes_length (k : Nat) : ∀ n, (toLEBytes k n).length = k := by
  induction k with
  | zero => intro n; rfl
  | succ k ih => intro n; simp [toLEBytes, ih]

/-- Little-endian byte rendering produces bytes. -/
theorem toLEBytes_lt (k : Nat) : ∀ n, ∀ b ∈ toLEBytes k n, b < 256 := by
  induction k with
  | zero => intro n b hb; cases hb
  | succ k ih =>
      intro n b hb
      simp only [toLEBytes, List.mem_cons] at hb
      rcases hb with h1 | h1
      · subst h1; exact Nat.mod_lt _ (by omega)
      · exact ih _ _ h1

/-- The MD5 digest is sixteen bytes. -/
theorem md5bytes_length (msg : List Nat) : (md5bytes msg).length = 16 := by
  rw [md5bytes]
  simp [toLEBytes_length]

/-- Every entry of the MD5 digest is a byte. -/
theorem md5bytes_lt (msg : List Nat) : ∀ b ∈ md5bytes msg, b < 256 := by
  rw [md5bytes]
  intro b hb
  simp only [List.mem_append] at hb
  rcases hb with ((h | h) | h) | h <;> exact toLEBytes_lt _ _ _ h

/-- Hex rendering of a byte string: twice the length, all hex digits. -/
theorem bytesToHex_shape (bs : List Nat) (hb : ∀ b ∈ bs, b < 256) :
    (bytesToHex bs).length = 2 * bs.length ∧
    (bytesToHex bs).data.all isHexLowerChar = true := by
  induction bs with
  | nil => exact ⟨rfl, rfl⟩
  | cons b bs ih =>
      have hbs : ∀ x ∈ bs, x < 256 := fun x hx => hb x (List.mem_cons_of_mem b hx)
      rcases ih hbs with ⟨hl, ha⟩
      constructor
      · have : (bytesToHex (b :: bs)).length
            = (byteToHex b).length + (bytesToHex bs).length := by
          simp [bytesToHex, String.length]
        rw [this, hl, byteToHex]
        simp
        omega
      · simp only [bytesToHex, List.map_cons, List.flatten_cons, List.all_append]
        simp only [bytesToHex] at ha
        rw [ha]
        have h2 : (byteToHex b).all isHexLowerChar = true := by
          rw [List.all_eq_true]
          exact byteToHex_isHex (hb b (List.mem_cons_self b bs))
        rw [h2]
        rfl

/-- The hex digest of MD5 has thirty-two lowercase hexadecimal characters. -/
theorem md5hex_shape (msg : List Nat) :
    (md5hex msg).length = 32 ∧
    (md5hex msg).data.all isHexLowerChar = true := by
  have := bytesToHex_shape (md5bytes msg) (md5bytes_lt msg)
  rw [md5bytes_length msg] at this
  exact ⟨this.1, this.2⟩

/-- Evaluation of the CPID fallback once the endpoint parses: a ValueError for
a scheme other than http or https, the digest of the hostname when present,
an AttributeError when absent. -/
theorem cpid_eval (e : String) (parts : UrlParts)
    (hp : urlsplitM e.data = Except.ok parts) :
    generate_cpid_from_endpoint e
      = if parts.scheme = "http".data ∨ parts.scheme = "https".data then
          match hostnameOf parts.netloc with
          | some h => Except.ok (md5hex (utf8Bytes (String.mk h)))
          | none => Except.error PyErr.attributeError
        else Except.error PyErr.valueError := by
  simp only [generate_cpid_from_endpoint, hp]

end CpidLemmas

section CpidClaims

/-- C4 counterexample: the endpoint consisting of the scheme marker alone
parses with scheme http, yet the fallback does not return a digest — the
hostname attribute is None and encoding it raises an AttributeError. -/
theorem C4_scheme_only_counterexample :
    (urlsplitM "http://".data).toOption.map UrlParts.scheme
        = some "http".data
    ∧ (generate_cpid_from_endpoint "http://").toOption = none
    ∧ generate_cpid_from_endpoint "http://"
        = Except.error PyErr.attributeError := by decide

/-- C4 amended: when the endpoint parses, the fallback raises ValueError
exactly for a scheme other than http or https, and for an http or https
endpoint whose parsed hostname is present it returns the MD5 hex digest of
the hostname, lower-cased and UTF-8 encoded (when the hostname is absent it
instead fails with an AttributeError). -/
theorem C4_cpid_fallback (e : String) (parts : UrlParts) (h : List Char)
    (hp : urlsplitM e.data = Except.ok parts) :
    (parts.scheme = "http".data ∨ parts.scheme = "https".data →
      hostnameOf parts.netloc = some h →
      generate_cpid_from_endpoint e
        = Except.ok (md5hex (utf8Bytes (String.mk h)))) ∧
    (¬(parts.scheme = "http".data ∨ parts.scheme = "https".data) →
      generate_cpid_from_endpoint e = Except.error PyErr.valueError) := by
  rw [cpid_eval e parts hp]
  constructor
  · intro hs hh
    rw [if_pos hs, hh]
  · intro hs
    rw [if_neg hs]

/-- Witness for C4 at the spec's two examples: the https endpoint hashes to
the MD5 hex digest of its hostname, the ftp endpoint raises ValueError. -/
theorem C4_cpid_fallback_witness :
    generate_cpid_from_endpoint "https://cloud.example.com:5000/v3"
        = Except.ok "111d5bfb97c0767001d84c0d0449fdf8"
    ∧ md5hex (utf8Bytes "cloud.example.com")
        = "111d5bfb97c0767001d84c0d0449fdf8"
    ∧ generate_cpid_from_endpoint "ftp://bad.example.com"
        = Except.error PyErr.valueError := by
  have h1 := (C4_cpid_fallback "https://cloud.example.com:5000/v3"
    ⟨"https".data, "cloud.example.com:5000".data⟩ "cloud.example.com".data
    (by decide)).1 (by decide) (by decide)
  have h2 := (C4_cpid_fallback "ftp://bad.example.com"
    ⟨"ftp".data, "bad.example.com".data⟩ []
    (by decide)).2 (by decide)
  refine ⟨?_, by decide, h2⟩
  rw [h1]
  decide

/-- C9 counterexample: an https endpoint with no hostname defeats the claim
that the fallback always succeeds once the scheme check passes — it raises an
AttributeError. -/
theorem C9_scheme_only_counterexample :
    (urlsplitM "https://".data).toOption.map UrlParts.scheme
        = some "https".data
    ∧ generate_cpid_from_endpoint "https://"
        = Except.error PyErr.attributeError := by decide

/-- C9 amended: for every endpoint that parses with scheme http or https and a
present hostname, the fallback succeeds with no network dependency: it
returns the MD5 digest, a string of thirty-two lowercase hexadecimal
characters, and never raises. -/
theorem C9_cpid_total (e : String) (parts : UrlParts) (h : List Char)
    (hp : urlsplitM e.data = Except.ok parts)
    (hs : parts.scheme = "http".data ∨ parts.scheme = "https".data)
    (hh : hostnameOf parts.netloc = some h) :
    generate_cpid_from_endpoint e
        = Except.ok (md5hex (utf8Bytes (String.mk h)))
    ∧ (md5hex (utf8Bytes (String.mk h))).length = 32
    ∧ (md5hex (utf8Bytes (String.mk h))).data.all isHexLowerChar = true := by
  have he := cpid_eval e parts hp
  rw [if_pos hs, hh] at he
  exact ⟨he, md5hex_shape _⟩

/-- Witness for C9: a plain http endpoint evaluates to a concrete digest of
the expected shape. -/
theorem C9_cpid_total_witness :
    generate_cpid_from_endpoint "http://cloud.example.com"
        = Except.ok "111d5bfb97c0767001d84c0d0449fdf8"
    ∧ ("111d5bfb97c0767001d84c0d0449fdf8" : String).length = 32 := by
  have h := C9_cpid_total "http://cloud.example.com"
    ⟨"http".data, "cloud.example.com".data⟩ "cloud.example.com".data
    (by decide) (by decide) (by decide)
  refine ⟨?_, by decide⟩
  rw [h.1]
  decide

end CpidClaims

section SigningLemmas

/-- The SHA-256 embedding agrees with the published digest of abc. -/
theorem sha256_matches_reference :
    bytesToHex (sha256bytes (utf8Bytes "abc"))
      = "ba7816bf8f01cfea414140de5dae2223b00361a396177a9cb410ff61f20015ad" := by
  decide

/-- The full signing pipeline agrees with an independently computed
RSASSA-PKCS1-v1_5 reference signature for the fixture key and payload. -/
theorem rsaSign_matches_reference :
    bytesToHex (rsaSign [] tKey (utf8Bytes tData))
      = "b3288423510216f1c1dc896e8207cb537de16dc95493b129f7bce62da6a23dae34ed41868b25573d17a74b3e0ca06007871ce7eba0e135b2db9e8e3e31538884" := by
  have h1 : octetLen tKey.n = 64 := by decide
  have h2 : beWord (emsaPkcs1v15 [] (sha256bytes (utf8Bytes tData)) 64)
      = 409173825987017733751648542997566029938148046617392981389751408119740010016530450784381983996985513236313739265111604936691350798746976020559581903155 := by
    decide
  rw [rsaSign, h1, h2]
  decide

/-- The OpenSSH public-key export agrees with an independently computed
reference rendering for the fixture key. -/
theorem openssh_matches_reference :
    opensshPublicKey tKey
      = "ssh-rsa AAAAB3NzaC1yc2EAAAADAQABAAAAQQC9U1cYBqERdch5/1TP0cdKpLXQNdcET522xaiUsPTw68GcuUV3wLPbigH0p4ggteJOZEyjOxA6S578ZfD2FdgJ" := by
  decide

end SigningLemmas

section SigningClaims

/-- C5: the signature computation — RSA with PKCS#1 v1.5 padding and SHA-256
over the exact serialized bytes, hex-encoded — consumes no randomness: any
two computations with the same key and the same payload, whatever entropy
streams the signing interface is offered, produce byte-identical hex
signatures and identical signed POST requests. -/
theorem C5_signature_deterministic (url data : String) (key : RSAKey)
    (entropy1 entropy2 : List Nat) :
    bytesToHex (rsaSign entropy1 key (utf8Bytes data))
        = bytesToHex (rsaSign entropy2 key (utf8Bytes data))
    ∧ post_results url data entropy1 (some (Except.ok (Except.ok key)))
        = post_results url data entropy2 (some (Except.ok (Except.ok key))) :=
  ⟨rfl, rfl⟩

/-- C6 counterexample: with a key file that opens but fails to parse, the
claim predicts the envelope is still POSTed without signature headers; the
code instead returns after logging, making no request at all. -/
theorem C6_keyfail_counterexample :
    post_results "https://refstack.example.com/api" "payload" []
        (some (Except.ok (Except.error KeyLoadErr.malformedKey)))
      = Except.ok none
    ∧ (Except.ok none : Except Unit (Option PostRequest))
        ≠ Except.ok (some ⟨"https://refstack.example.com/api/v1/results/",
            "payload", none, none⟩) := by decide

/-- C6 amended: a caught key-parse failure (unsupported algorithm or
malformed key) makes post_results log and return without submitting — no
POST occurs at all, signed or unsigned; an unreadable key file raises out of
the function, since the open call sits outside the try block; only a call
without a signing key posts the envelope with no signature headers. -/
theorem C6_keyfail_abandons (url data : String) (entropy : List Nat)
    (ke : KeyLoadErr) :
    post_results url data entropy (some (Except.ok (Except.error ke)))
        = Except.ok none
    ∧ post_results url data entropy (some (Except.error ()))
        = Except.error ()
    ∧ post_results url data entropy none
        = Except.ok (some ⟨url ++ "/v1/results/", data, none, none⟩) :=
  ⟨rfl, rfl, rfl⟩

end SigningClaims

section YieldLemmas

/-- Against a server where every page succeeds and reports N total pages, the
run from any page not beyond N yields the batches of pages page through N in
order and leaves at the exhaustion stop site. -/
theorem yield_results_all_ok (fetch : Nat → Except Unit PageResponse)
    (batch : Nat → List String) (N : Nat)
    (hf : ∀ p, fetch p = Except.ok ⟨batch p, N⟩) :
    ∀ fuel page, page ≤ N → N - page < fuel →
      yield_results_run fetch fuel page
        = ((List.range' page (N + 1 - page)).map batch,
            GenExit.exhaustedStop) := by
  intro fuel
  induction fuel with
  | zero => intro page hp hfuel; exact absurd hfuel (Nat.not_lt_zero _)
  | succ fuel ih =>
      intro page hp hfuel
      by_cases hN : N = page
      · subst hN
        simp only [yield_results_run, hf N, if_true]
        have h1 : N + 1 - N = 1 := by omega
        rw [h1]
        simp [List.range']
      · have hlt : page < N := Nat.lt_of_le_of_ne hp (fun h => hN h.symm)
        have hrec := ih (page + 1) hlt (by omega)
        simp only [yield_results_run, hf page]
        rw [if_neg hN]
        simp only [hrec]
        have h2 : N + 1 - page = (N + 1 - (page + 1)) + 1 := by omega
        rw [h2]
        simp [List.range']

end YieldLemmas

section YieldClaims

/-- C7: against a server reporting three total pages with every page request
succeeding, the loop starting at page 1 yields exactly the three batches in
page order, none repeated, none skipped — but it then leaves by raising
StopIteration inside the generator body, which Python 3.7 and later converts
to a RuntimeError at the consumer (PEP 479) instead of a normal end of the
sequence. -/
theorem C7_three_pages_then_runtime_error :
    yield_results_run server3 10 1
      = ([["batch1"], ["batch2"], ["batch3"]], GenExit.exhaustedStop)
    ∧ observedEnd GenExit.exhaustedStop = CallerEnd.runtimeError
    ∧ CallerEnd.runtimeError ≠ CallerEnd.normalEnd := by decide

/-- C8: an HTTP-level error on a page request is logged and reaches the first
raise site; the batches yielded before it are exactly the earlier pages, but
under Python 3.7 and later the raise of StopIteration inside the generator
body propagates to the consumer as a RuntimeError — a fault, not a normal
end of the sequence. -/
theorem C8_http_error_then_runtime_error :
    yield_results_run serverFailAt2 10 1
      = ([["batch1"]], GenExit.httpErrorStop)
    ∧ observedEnd GenExit.httpErrorStop = CallerEnd.runtimeError
    ∧ CallerEnd.runtimeError ≠ CallerEnd.normalEnd := by decide

end YieldClaims

end Refstack
